import Mathlib

/-
Verification of the endlesspan analyzer (src/endlesspan.go, the revision
holding the funcStack-based implementation of run) against its
natural-language specification.

The embedding models the parts of the Go program the claims are about:

* a small Go AST covering the node kinds the nodeFilter of the analyzer selects
  (FuncDecl, FuncLit, AssignStmt, ReturnStmt, DeferStmt) plus enough other
  syntax (selector, call, if, block, expression statement) to build the
  programs the claims describe;
* the flattening performed by inspector.Preorder with that nodeFilter:
  matched nodes are visited in preorder, parents before children, so the
  analysis is a fold over the list of matched nodes (Event below);
* the body of run itself, translated statement by statement: the funcStack
  of funcInfo records, the AssignStmt / DeferStmt / ReturnStmt cases, and
  the trailing function-exit check that fires on FuncDecl nodes.

Identifier resolution (pass.TypesInfo.ObjectOf) and the assignability test
types.AssignableTo(obj.Type(), spanType) are front-end facts; an identifier
carries its resolved object (Option Obj) and an object carries a type token,
assignability being token equality against the span type token the run
obtained from packages.Load. The three Go maps of funcInfo are keyed by
object identity (types.Object pointers); they are modelled as association
lists keyed by Obj with insertion-order iteration standing in for the map
iteration order (the exit check is the only iteration, and it only ever
runs on an empty map, so the choice is immaterial to every theorem below).
-/

namespace Endlesspan

/-- A resolved object (types.Object): identity, declaration position
(types.Object.Pos, the position of the declaring identifier, i.e. the
acquisition site for a binding introduced by a short variable declaration),
and a type token. -/
structure Obj where
  id : Nat
  pos : Nat
  ty : Nat
deriving DecidableEq

mutual

/-- Go expressions, restricted to the shapes run inspects. An identifier
carries the object pass.TypesInfo.ObjectOf resolves it to (none when the
resolution yields nil, e.g. the blank identifier). basic stands for any
other expression. -/
inductive Expr where
  | ident (obj : Option Obj) (pos : Nat)
  | call (fn : Expr) (args : ExprList) (pos : Nat)
  | sel (recv : Expr) (name : String) (pos : Nat)
  | funcLit (body : StmtList)
  | basic (pos : Nat)

inductive ExprList where
  | nil
  | cons (e : Expr) (es : ExprList)

/-- Go statements: the three statement kinds in the nodeFilter, plus the
syntax needed to place them inside branches and blocks. -/
inductive Stmt where
  | assign (lhs rhs : ExprList) (pos : Nat)
  | deferS (fn : Expr) (args : ExprList) (pos : Nat)
  | ret (results : ExprList) (pos : Nat)
  | exprS (e : Expr)
  | ifS (cond : Expr) (thn els : StmtList)
  | block (ss : StmtList)

inductive StmtList where
  | nil
  | cons (s : Stmt) (ss : StmtList)

end

/-- Top-level declarations: a function declaration, or a var declaration
whose initializer expressions may contain function literals. -/
inductive Decl where
  | funcDecl (body : StmtList)
  | varDecl (inits : ExprList)

/-- One analyzed package: its declarations in source order. -/
def File : Type := List Decl

def StmtList.append : StmtList → StmtList → StmtList
  | .nil, b => b
  | .cons s ss, b => .cons s (ss.append b)

/-- A node visited by inspector.Preorder under the nodeFilter of run, carrying
exactly the fields the corresponding case of the switch reads. -/
inductive Event where
  | funcDecl
  | funcLit
  | assign (lhs rhs : ExprList)
  | deferS (fn : Expr)
  | ret (results : ExprList)

mutual

/-- Filtered preorder traversal of an expression: the only expression node
in the nodeFilter is FuncLit; traversal still descends into every child so
nested literals and statements are found, parent first. -/
def eventsOfExpr : Expr → List Event
  | .ident _ _ => []
  | .call fn args _ => eventsOfExpr fn ++ eventsOfExprList args
  | .sel recv _ _ => eventsOfExpr recv
  | .funcLit body => Event.funcLit :: eventsOfStmtList body
  | .basic _ => []

def eventsOfExprList : ExprList → List Event
  | .nil => []
  | .cons e es => eventsOfExpr e ++ eventsOfExprList es

/-- Filtered preorder traversal of a statement. An AssignStmt, DeferStmt or
ReturnStmt is itself matched (visited before its children); an ExprStmt is
not in the nodeFilter, so a release call standing alone as a statement
produces no event of its own. -/
def eventsOfStmt : Stmt → List Event
  | .assign lhs rhs _ => Event.assign lhs rhs :: (eventsOfExprList lhs ++ eventsOfExprList rhs)
  | .deferS fn args _ => Event.deferS fn :: (eventsOfExpr fn ++ eventsOfExprList args)
  | .ret results _ => Event.ret results :: eventsOfExprList results
  | .exprS e => eventsOfExpr e
  | .ifS cond thn els => eventsOfExpr cond ++ (eventsOfStmtList thn ++ eventsOfStmtList els)
  | .block ss => eventsOfStmtList ss

def eventsOfStmtList : StmtList → List Event
  | .nil => []
  | .cons s ss => eventsOfStmt s ++ eventsOfStmtList ss

end

def eventsOfDecl : Decl → List Event
  | .funcDecl body => Event.funcDecl :: eventsOfStmtList body
  | .varDecl inits => eventsOfExprList inits

def eventsOfFile : File → List Event
  | [] => []
  | d :: ds => eventsOfDecl d ++ eventsOfFile ds

/-- types.AssignableTo(obj.Type(), spanType), with types as tokens. -/
def assignableTo (t spanTy : Nat) : Bool := decide (t = spanTy)

/-- A diagnostic emitted by pass.Reportf: position and message. -/
abbrev Diag : Type := Nat × String

def missingMsg : String := "missing span.End() call in the scope"

def preferMsg : String := "you may want to defer the span.End() call"

/-- The funcInfo record of run: per function under analysis, whether each
tracked span object has End called (spans), has a deferred End (hasDefer),
and is returned (returned). Go maps keyed by types.Object, modelled as
association lists keyed by Obj. -/
structure FuncInfo where
  spans : List (Obj × Bool)
  hasDefer : List (Obj × Bool)
  returned : List (Obj × Bool)

def FuncInfo.empty : FuncInfo := ⟨[], [], []⟩

/-- Go map indexing m[k] with the Bool zero value for an absent key. -/
def mapGet (m : List (Obj × Bool)) (k : Obj) : Bool :=
  match m.find? (fun p => decide (p.1 = k)) with
  | some p => p.2
  | none => false

/-- Go map membership test (the comma-ok form). -/
def mapHas (m : List (Obj × Bool)) (k : Obj) : Bool :=
  m.any (fun p => decide (p.1 = k))

/-- Go map assignment m[k] = v: overwrite when present, insert otherwise. -/
def mapSet (m : List (Obj × Bool)) (k : Obj) (v : Bool) : List (Obj × Bool) :=
  if mapHas m k then m.map (fun p => if p.1 = k then (k, v) else p) else m ++ [(k, v)]

/-- The AssignStmt case of run: require exactly two left-hand sides and one
right-hand side, the right-hand side a call whose function is a selector
named Start, the second left-hand side an identifier resolving to an object
assignable to the span type; then record the object as a tracked span with
End not yet seen. Any failed check returns with the state unchanged. -/
def stepAssign (spanTy : Nat) (fi : FuncInfo) (lhs rhs : ExprList) : FuncInfo :=
  match lhs, rhs with
  | .cons _ (.cons l1 .nil), .cons r0 .nil =>
    match r0 with
    | .call fn _ _ =>
      match fn with
      | .sel _ selName _ =>
        if selName = "Start" then
          match l1 with
          | .ident (some o) _ =>
            if assignableTo o.ty spanTy then
              { fi with spans := mapSet fi.spans o false }
            else fi
          | _ => fi
        else fi
      | _ => fi
    | _ => fi
  | _, _ => fi

/-- The DeferStmt case of run: a deferred call whose function is a selector
named End on an identifier resolving to a tracked span marks the span ended
and records the deferred release. -/
def stepDefer (fi : FuncInfo) (fn : Expr) : FuncInfo :=
  match fn with
  | .sel recv selName _ =>
    if selName = "End" then
      match recv with
      | .ident (some o) _ =>
        if mapHas fi.spans o then
          { fi with spans := mapSet fi.spans o true, hasDefer := mapSet fi.hasDefer o true }
        else fi
      | _ => fi
    else fi
  | _ => fi

/-- First loop of the ReturnStmt case: a result that is an identifier
resolving to a tracked span marks that span returned. -/
def retMarkReturned (fi : FuncInfo) : ExprList → FuncInfo
  | .nil => fi
  | .cons r rs =>
    let fi1 :=
      match r with
      | .ident (some o) _ =>
        if mapHas fi.spans o then { fi with returned := mapSet fi.returned o true } else fi
      | _ => fi
    retMarkReturned fi1 rs

/-- One result expression of the second loop of the ReturnStmt case: a
result that is a call to a selector named End on an identifier resolving to
a tracked span marks the span ended and, when no deferred End was recorded,
reports the advisory at the call position. -/
def retCheckOne (fi : FuncInfo) (ds : List Diag) (r : Expr) : FuncInfo × List Diag :=
  match r with
  | .call fn _ callPos =>
    match fn with
    | .sel recv selName _ =>
      if selName = "End" then
        match recv with
        | .ident (some o) _ =>
          if mapHas fi.spans o then
            ({ fi with spans := mapSet fi.spans o true },
              if mapGet fi.hasDefer o then ds else ds ++ [(callPos, preferMsg)])
          else (fi, ds)
        | _ => (fi, ds)
      else (fi, ds)
    | _ => (fi, ds)
  | _ => (fi, ds)

/-- Second loop of the ReturnStmt case, over all result expressions. -/
def retCheckEnds (fi : FuncInfo) (ds : List Diag) : ExprList → FuncInfo × List Diag
  | .nil => (fi, ds)
  | .cons r rs =>
    let p := retCheckOne fi ds r
    retCheckEnds p.1 p.2 rs

/-- The function-exit loop of run: report every tracked span that is
neither ended nor returned, at the declaration position of the object. -/
def exitLoop (returned : List (Obj × Bool)) : List (Obj × Bool) → List Diag
  | [] => []
  | (o, ended) :: rest =>
    (if !ended && !(mapGet returned o) then [(o.pos, missingMsg)] else []) ++
      exitLoop returned rest

/-- The analyzer state: the funcStack (top of the Go slice is the list
head here) and the diagnostics reported so far, in emission order. -/
structure St where
  stack : List FuncInfo
  diags : List Diag

/-- The switch of the Preorder callback of run, one case per node kind of
the nodeFilter (FuncDecl and FuncLit each push a fresh funcInfo; the
statement cases return unchanged when the funcStack is empty). -/
def stepSwitch (spanTy : Nat) (st : St) (ev : Event) : St :=
  match ev with
  | .funcDecl => { st with stack := FuncInfo.empty :: st.stack }
  | .funcLit => { st with stack := FuncInfo.empty :: st.stack }
  | .assign lhs rhs =>
    match st.stack with
    | [] => st
    | fi :: rest => { st with stack := stepAssign spanTy fi lhs rhs :: rest }
  | .deferS fn =>
    match st.stack with
    | [] => st
    | fi :: rest => { st with stack := stepDefer fi fn :: rest }
  | .ret results =>
    match st.stack with
    | [] => st
    | fi :: rest =>
      let fi1 := retMarkReturned fi results
      let p := retCheckEnds fi1 st.diags results
      { stack := p.1 :: rest, diags := p.2 }

/-- The trailing when-leaving-a-function block of the callback: report the
unended, unreturned spans of the top funcInfo and pop it. -/
def exitCheck (st : St) : St :=
  match st.stack with
  | [] => st
  | fi :: rest => { stack := rest, diags := st.diags ++ exitLoop fi.returned fi.spans }

/-- One invocation of the Preorder callback of run: first the switch, then
the trailing check that runs whenever the node is a FuncDecl. Note the
trailing check sees the stack ALREADY holding the fresh funcInfo pushed by
the switch of the same invocation: Preorder visits a FuncDecl before its
body, there is no leave event. -/
def step (spanTy : Nat) (st : St) (ev : Event) : St :=
  match ev with
  | .funcDecl => exitCheck (stepSwitch spanTy st .funcDecl)
  | ev => stepSwitch spanTy st ev

/-- The whole Preorder pass of run: fold the callback over the filtered
preorder node sequence, starting from an empty stack, collecting the
reported diagnostics in order. -/
def runEvents (spanTy : Nat) (evs : List Event) : List Diag :=
  (evs.foldl (step spanTy) ⟨[], []⟩).diags

/-- Failure modes of run before the Preorder pass: packages.Load returned
an error, which run returns as its own error; or the loaded package (index
0 of the result, Scope lookup of Span) yields nil, in which case the
unconditional .Type() call dereferences a nil pointer and run panics. -/
inductive RunErr where
  | load (msg : String)
  | panicNilSpan
deriving DecidableEq

/-- run itself. Its first input is the outcome of the packages.Load call
made inside run (an external, environment-dependent effect): an error
message, or the result of looking Span up in the loaded package, the found
type being the token against which assignability is checked (the code
wraps it in types.NewPointer; the token stands for that whole type). -/
def run (load : Except String (Option Nat)) (file : File) : Except RunErr (List Diag) :=
  match load with
  | .error e => .error (.load e)
  | .ok none => .error .panicNilSpan
  | .ok (some spanTy) => .ok (runEvents spanTy (eventsOfFile file))

/-! Claim-side characterizations: predicates mirroring the wording of the
claims, used as hypotheses of the claim theorems and compared against the
analyzer code. -/

/-- The shape the AssignStmt case of run requires before it tracks a
binding, restated as one total function: exactly two left-hand sides and
one right-hand side, the right-hand side a call on a selector named Start,
the second left-hand side an identifier resolving to an object whose type
is assignable to the span type. Returns the tracked object, none when any
condition fails. -/
def spanAcqObj (spanTy : Nat) (lhs rhs : ExprList) : Option Obj :=
  match lhs, rhs with
  | .cons _ (.cons (.ident (some o) _) .nil),
    .cons (.call (.sel _ selName _) _ _) .nil =>
    if selName = "Start" then
      if assignableTo o.ty spanTy then some o else none
    else none
  | _, _ => none

/-- The statement is a defer of an End call on an identifier resolving to
the given object. -/
def isDeferEndOf (o : Obj) : Stmt → Bool
  | .deferS fn _ _ =>
    match fn with
    | .sel recv selName _ =>
      if selName = "End" then
        match recv with
        | .ident (some o') _ => decide (o' = o)
        | _ => false
      else false
    | _ => false
  | _ => false

def hasDeferEndOf (o : Obj) : StmtList → Bool
  | .nil => false
  | .cons s ss => isDeferEndOf o s || hasDeferEndOf o ss

/-- The function body acquires the object at its top statement level and a
defer of its End call follows, also at the top statement level: the defer
is registered unconditionally, in the same scope as the acquisition, on
every path from it. -/
def acqThenDeferTop (spanTy : Nat) (o : Obj) : StmtList → Bool
  | .nil => false
  | .cons s ss =>
    (match s with
     | .assign lhs rhs _ => decide (spanAcqObj spanTy lhs rhs = some o) && hasDeferEndOf o ss
     | _ => false) || acqThenDeferTop spanTy o ss

mutual

/-- All function bodies occurring in an expression (function literals,
including nested ones). -/
def bodiesOfExpr : Expr → List StmtList
  | .ident _ _ => []
  | .call fn args _ => bodiesOfExpr fn ++ bodiesOfExprList args
  | .sel recv _ _ => bodiesOfExpr recv
  | .funcLit body => body :: bodiesOfStmtList body
  | .basic _ => []

def bodiesOfExprList : ExprList → List StmtList
  | .nil => []
  | .cons e es => bodiesOfExpr e ++ bodiesOfExprList es

def bodiesOfStmt : Stmt → List StmtList
  | .assign lhs rhs _ => bodiesOfExprList lhs ++ bodiesOfExprList rhs
  | .deferS fn args _ => bodiesOfExpr fn ++ bodiesOfExprList args
  | .ret results _ => bodiesOfExprList results
  | .exprS e => bodiesOfExpr e
  | .ifS cond thn els => bodiesOfExpr cond ++ (bodiesOfStmtList thn ++ bodiesOfStmtList els)
  | .block ss => bodiesOfStmtList ss

def bodiesOfStmtList : StmtList → List StmtList
  | .nil => []
  | .cons s ss => bodiesOfStmt s ++ bodiesOfStmtList ss

end

/-- All function bodies of a file: declared functions and every function
literal, nested ones included. -/
def bodiesOfFile : File → List StmtList
  | [] => []
  | d :: ds =>
    (match d with
     | .funcDecl body => body :: bodiesOfStmtList body
     | .varDecl inits => bodiesOfExprList inits) ++ bodiesOfFile ds

/-- Some function of the file acquires the object and registers a deferred
End for it unconditionally in the same scope (the hypothesis of claim C2). -/
def fileHasUncondDefer (spanTy : Nat) (o : Obj) (f : File) : Bool :=
  (bodiesOfFile f).any (acqThenDeferTop spanTy o)

/-- Some result expression of the return statement is an identifier
resolving to the given object. -/
def retHasIdentOf (o : Obj) : ExprList → Bool
  | .nil => false
  | .cons r rs =>
    (match r with
     | .ident (some o') _ => decide (o' = o)
     | _ => false) || retHasIdentOf o rs

mutual

/-- The statement contains, possibly under branches or blocks of the same
function (not under nested function literals), an assignment tracking the
object as a span acquisition. -/
def stmtHasAcqOf (spanTy : Nat) (o : Obj) : Stmt → Bool
  | .assign lhs rhs _ => decide (spanAcqObj spanTy lhs rhs = some o)
  | .ifS _ thn els => stmtListHasAcqOf spanTy o thn || stmtListHasAcqOf spanTy o els
  | .block ss => stmtListHasAcqOf spanTy o ss
  | _ => false

def stmtListHasAcqOf (spanTy : Nat) (o : Obj) : StmtList → Bool
  | .nil => false
  | .cons s ss => stmtHasAcqOf spanTy o s || stmtListHasAcqOf spanTy o ss

end

mutual

/-- The statement contains, possibly under branches or blocks of the same
function, a return statement having the object among its result
identifiers. -/
def stmtReturnsObj (o : Obj) : Stmt → Bool
  | .ret results _ => retHasIdentOf o results
  | .ifS _ thn els => stmtListReturnsObj o thn || stmtListReturnsObj o els
  | .block ss => stmtListReturnsObj o ss
  | _ => false

def stmtListReturnsObj (o : Obj) : StmtList → Bool
  | .nil => false
  | .cons s ss => stmtReturnsObj o s || stmtListReturnsObj o ss

end

/-- Some function of the file acquires the object and has it among the
result expressions of one of its return statements (the hypothesis of
claim C4). -/
def fileAcqReturned (spanTy : Nat) (o : Obj) (f : File) : Bool :=
  (bodiesOfFile f).any (fun b => stmtListHasAcqOf spanTy o b && stmtListReturnsObj o b)

/-! Concrete programs used by the counterexamples, code evaluations and
witnesses. Objects use type token 0 for the span type and the analysis is
run with the successfully loaded span type 0 unless said otherwise. -/

/-- The canonical acquisition statement: underscore and the span identifier
on the left, a tracer.Start call on the right; the position of the object is the
acquisition site. -/
def acqStmt (o : Obj) (p : Nat) : Stmt :=
  .assign (.cons (.ident none p) (.cons (.ident (some o) o.pos) .nil))
    (.cons (.call (.sel (.ident none p) "Start" p) (.cons (.basic p) .nil) p) .nil) p

/-- A statement releasing the object directly: a standalone span.End()
expression statement. -/
def directEndStmt (o : Obj) (p : Nat) : Stmt :=
  .exprS (.call (.sel (.ident (some o) p) "End" p) .nil p)

/-- A statement registering a deferred release of the object. -/
def deferEndStmt (o : Obj) (p : Nat) : Stmt :=
  .deferS (.sel (.ident (some o) p) "End" p) .nil p

/-- A plain return not mentioning any span. -/
def retNil (p : Nat) : Stmt := .ret (.cons (.ident none p) .nil) p

/-- A file holding a single var declaration initialized with one function
literal, the shape of the testdata anonymous functions. -/
def funcLitFile (body : StmtList) : File :=
  [ .varDecl (.cons (.funcLit body) .nil) ]

/-- Scenario A (claim C1): a declared function that acquires a span,
releases it directly only inside one branch of a conditional, and
returns; the release is missing on the fall-through path. -/
def oA : Obj := ⟨1, 10, 0⟩

def progA : File :=
  [ .funcDecl (.cons (acqStmt oA 10)
      (.cons (.ifS (.basic 11) (.cons (directEndStmt oA 12) .nil) .nil)
      (.cons (retNil 13) .nil))) ]

/-- The endful shape (the witness program of claim C2): acquire, defer the release
unconditionally in the same scope, branch, return. -/
def oB : Obj := ⟨2, 20, 0⟩

def progB : File :=
  [ .funcDecl (.cons (acqStmt oB 20)
      (.cons (deferEndStmt oB 21)
      (.cons (.ifS (.basic 22) (.cons (retNil 23) .nil) .nil)
      (.cons (retNil 24) .nil)))) ]

/-- The counterexample program of claim C3: the deferred release is registered only
inside one branch of a conditional, the fall-through path reaches the
return with no release and the binding is not returned. -/
def oC : Obj := ⟨3, 30, 0⟩

def progC : File :=
  funcLitFile (.cons (acqStmt oC 30)
    (.cons (.ifS (.basic 31) (.cons (deferEndStmt oC 32) .nil) .nil)
    (.cons (retNil 33) .nil)))

/-- The returningSpan shape (the witness program of claim C4): acquire, return the
handle itself. -/
def oD : Obj := ⟨4, 40, 0⟩

def progD : File :=
  [ .funcDecl (.cons (acqStmt oD 40)
      (.cons (.ret (.cons (.ident (some oD) 41) .nil) 41) .nil)) ]

/-- Scenario D (claim C5): acquire, release directly on the single path
through the function, return. -/
def oE : Obj := ⟨5, 50, 0⟩

def progE : File :=
  [ .funcDecl (.cons (acqStmt oE 50)
      (.cons (directEndStmt oE 51)
      (.cons (retNil 52) .nil))) ]

/-- Scenario E (claim C6): a declared function whose body assigns a
function literal to a variable; the literal acquires a span and never
releases or returns it, while the outer function itself tracks nothing. -/
def oF : Obj := ⟨6, 62, 0⟩

def progF : File :=
  [ .funcDecl (.cons
      (.assign (.cons (.ident none 60) .nil)
        (.cons (.funcLit (.cons (acqStmt oF 62) (.cons (retNil 63) .nil))) .nil) 60)
      (.cons (retNil 64) .nil)) ]

/-- Claim C7: the same local name is re-declared with a second acquisition
(two distinct resolved objects) before the first is released; only the
second is released. -/
def oG1 : Obj := ⟨7, 70, 0⟩

def oG2 : Obj := ⟨8, 72, 0⟩

def progG : File :=
  funcLitFile (.cons (acqStmt oG1 70)
    (.cons (acqStmt oG2 72)
    (.cons (deferEndStmt oG2 73)
    (.cons (retNil 74) .nil))))

/-- The program of claim C9: a function literal that acquires a span and whose
return statement has the span.End() call among its results; whether the
binding is tracked, and hence whether the advisory is reported, depends on
the span type obtained from the external package load. -/
def oH : Obj := ⟨9, 90, 0⟩

def progH : File :=
  funcLitFile (.cons (acqStmt oH 90)
    (.cons (.ret (.cons (.call (.sel (.ident (some oH) 91) "End" 91) .nil 92) .nil) 93) .nil))


/-! Helper lemmas shared by the claim theorems. -/

/-- The per-result advisory step only ever appends the advisory message. -/
theorem retCheckOne_diags (fi : FuncInfo) (ds : List Diag) (r : Expr) :
    ∀ d ∈ (retCheckOne fi ds r).2, d ∈ ds ∨ d.2 = preferMsg := by
  intro d hd
  unfold retCheckOne at hd
  repeat' split at hd
  all_goals first
    | exact Or.inl hd
    | (rcases List.mem_append.mp hd with h | h
       · exact Or.inl h
       · simp only [List.mem_singleton] at h
         subst h
         exact Or.inr rfl)

/-- The ReturnStmt advisory loop only ever appends the advisory message. -/
theorem retCheckEnds_diags : ∀ (rs : ExprList) (fi : FuncInfo) (ds : List Diag),
    ∀ d ∈ (retCheckEnds fi ds rs).2, d ∈ ds ∨ d.2 = preferMsg
  | .nil, fi, ds, d, hd => Or.inl hd
  | .cons r rs, fi, ds, d, hd => by
    simp only [retCheckEnds] at hd
    rcases retCheckEnds_diags rs _ _ d hd with h | h
    · exact retCheckOne_diags fi ds r d h
    · exact Or.inr h

/-- A FuncDecl node leaves the analyzer state unchanged: the switch pushes
a fresh funcInfo and the trailing check of the same callback invocation
examines exactly that still-empty funcInfo (reporting nothing) and pops it.
Preorder visits the FuncDecl before any statement of its body, so the
function-exit check never sees the spans its body will track. -/
theorem step_funcDecl_eq (spanTy : Nat) (st : St) : step spanTy st .funcDecl = st := by
  show St.mk st.stack (st.diags ++ exitLoop [] []) = st
  simp [exitLoop]

/-- Any single callback invocation only ever appends advisory diagnostics:
the missing-release message is never emitted by any step. -/
theorem step_diags (spanTy : Nat) (ev : Event) (st : St) :
    ∀ d ∈ (step spanTy st ev).diags, d ∈ st.diags ∨ d.2 = preferMsg := by
  intro d hd
  cases ev with
  | funcDecl => rw [step_funcDecl_eq] at hd; exact Or.inl hd
  | funcLit => exact Or.inl hd
  | assign lhs rhs =>
    cases h : st.stack with
    | nil => simp only [step, stepSwitch, h] at hd; exact Or.inl hd
    | cons fi rest => simp only [step, stepSwitch, h] at hd; exact Or.inl hd
  | deferS fn =>
    cases h : st.stack with
    | nil => simp only [step, stepSwitch, h] at hd; exact Or.inl hd
    | cons fi rest => simp only [step, stepSwitch, h] at hd; exact Or.inl hd
  | ret results =>
    cases h : st.stack with
    | nil => simp only [step, stepSwitch, h] at hd; exact Or.inl hd
    | cons fi rest =>
      simp only [step, stepSwitch, h] at hd
      exact retCheckEnds_diags results _ st.diags d hd

theorem foldl_diags (spanTy : Nat) (evs : List Event) :
    ∀ (st : St), ∀ d ∈ (evs.foldl (step spanTy) st).diags, d ∈ st.diags ∨ d.2 = preferMsg := by
  induction evs with
  | nil => intro st d hd; exact Or.inl hd
  | cons ev evs ih =>
    intro st d hd
    rcases ih (step spanTy st ev) d hd with h | h
    · exact step_diags spanTy ev st d h
    · exact Or.inr h

/-- The analyzer never emits the missing-release diagnostic, for any input
whatsoever: the only report site for it is the function-exit loop, which
always runs on the fresh, empty funcInfo pushed by the same callback
invocation (FuncLit contexts are pushed but never checked at all). -/
theorem runEvents_no_missing (spanTy : Nat) (evs : List Event) (p : Nat) :
    ((p, missingMsg) : Diag) ∉ runEvents spanTy evs := by
  intro hmem
  rcases foldl_diags spanTy evs ⟨[], []⟩ _ hmem with h | h
  · exact (List.not_mem_nil _) h
  · have hne : missingMsg ≠ preferMsg := by decide
    exact hne h

/-- The findings of run are a function of the load result and the filtered
preorder node sequence of the file. -/
theorem run_congr (load : Except String (Option Nat)) (f1 f2 : File)
    (h : eventsOfFile f1 = eventsOfFile f2) : run load f1 = run load f2 := by
  cases load with
  | error e => rfl
  | ok v =>
    cases v with
    | none => rfl
    | some spanTy => simp only [run, runEvents, h]

theorem eventsOfStmtList_append : ∀ (a b : StmtList),
    eventsOfStmtList (a.append b) = eventsOfStmtList a ++ eventsOfStmtList b
  | .nil, b => rfl
  | .cons s ss, b => by
    simp [StmtList.append, eventsOfStmtList, eventsOfStmtList_append ss b]

/-- When any of the shape conditions of the AssignStmt case fails, the case
falls through one of its early returns and the funcInfo is untouched. -/
theorem stepAssign_none (spanTy : Nat) (fi : FuncInfo) (lhs rhs : ExprList)
    (h : spanAcqObj spanTy lhs rhs = none) : stepAssign spanTy fi lhs rhs = fi := by
  unfold stepAssign
  unfold spanAcqObj at h
  repeat' split
  all_goals try rfl
  all_goals simp_all

theorem step_assign_none (spanTy : Nat) (st : St) (lhs rhs : ExprList)
    (h : spanAcqObj spanTy lhs rhs = none) : step spanTy st (.assign lhs rhs) = st := by
  show stepSwitch spanTy st (.assign lhs rhs) = st
  cases hs : st.stack with
  | nil => simp only [stepSwitch, hs]
  | cons fi rest =>
    simp only [stepSwitch, hs, stepAssign_none spanTy fi lhs rhs h]
    calc ({ st with stack := fi :: rest } : St) = { st with stack := st.stack } := by rw [hs]
    _ = st := rfl

/-- A nonconforming assignment node can be deleted from the node sequence
without changing any finding of the whole run. -/
theorem runEvents_erase_assign (spanTy : Nat) (pre post : List Event) (lhs rhs : ExprList)
    (h : spanAcqObj spanTy lhs rhs = none) :
    runEvents spanTy (pre ++ Event.assign lhs rhs :: post) = runEvents spanTy (pre ++ post) := by
  unfold runEvents
  rw [List.foldl_append, List.foldl_append, List.foldl_cons,
    step_assign_none spanTy _ lhs rhs h]

/-! The claim theorems. -/

/-- Claim C1 (code bug, evaluation at the failing input): on Scenario A, a
declared function that acquires a span, releases it directly only inside
one branch, and returns, the claim (and the repository testdata) demand
exactly one MissingRelease finding at the acquisition site; the code
reports nothing at all. The function context is pushed and popped within
the single Preorder visit of the FuncDecl node, before the body is
traversed, so the binding is never tracked and the exit check always runs
over an empty map; moreover the direct release is an ExprStmt, a node kind
absent from the nodeFilter. -/
theorem c1_missing_release_not_reported : run (.ok (some 0)) progA = .ok [] := rfl

/-- Claim C2 (confirmed): for a function with an acquisition and an
unconditional same-scope deferred release of that binding, MissingRelease
is never reported for the binding. The proof shows more: this revision
never emits the missing-release diagnostic for any binding of any program,
so in particular not for this one. -/
theorem c2_deferred_never_missing (spanTy : Nat) (f : File) (o : Obj) (ds : List Diag)
    (_hdefer : fileHasUncondDefer spanTy o f = true)
    (hrun : run (.ok (some spanTy)) f = .ok ds) :
    ((o.pos, missingMsg) : Diag) ∉ ds := by
  have : runEvents spanTy (eventsOfFile f) = ds := by
    simpa [run] using hrun
  rw [← this]
  exact runEvents_no_missing spanTy _ o.pos

/-- Witness for claim C2: the endful-shaped program satisfies the
hypotheses and its run reports nothing. -/
theorem c2_deferred_never_missing_witness :
    fileHasUncondDefer 0 oB progB = true ∧ ((oB.pos, missingMsg) : Diag) ∉ ([] : List Diag) :=
  ⟨by decide, c2_deferred_never_missing 0 progB oB [] (by decide) rfl⟩

/-- Counterexample for claim C3: a function whose deferred release is
registered only inside one branch of a conditional, with the fall-through
path unreleased and the binding not returned. The claim demands a
MissingRelease report for the binding (at position 30); the run reports
nothing. -/
theorem c3_conditional_defer_counterexample : run (.ok (some 0)) progC = .ok [] := rfl

/-- Claim C3 (corrected): the analyzer is flow-insensitive about deferral.
Registering the deferred release under a conditional is indistinguishable
from registering it unconditionally: wrapping any statement of a function
literal body in a one-armed if (whose condition contributes no filtered
node) leaves the entire run output unchanged, because the DeferStmt case
sets one per-binding flag with no path information. Consequently no
MissingRelease is reported for the uncovered exit paths (this revision
reports none at all). -/
theorem c3_conditional_defer_like_unconditional (load : Except String (Option Nat)) (cond : Expr)
    (s : Stmt) (pre post : StmtList) (h : eventsOfExpr cond = []) :
    run load (funcLitFile (pre.append (.cons (.ifS cond (.cons s .nil) .nil) post)))
      = run load (funcLitFile (pre.append (.cons s post))) := by
  apply run_congr
  simp [funcLitFile, eventsOfFile, eventsOfDecl, eventsOfExprList, eventsOfExpr,
    eventsOfStmtList_append, eventsOfStmtList, eventsOfStmt, h]

/-- Witness for claim C3 as amended: the conditional-defer program of the
counterexample runs identically to its unconditional-defer variant. -/
theorem c3_conditional_defer_like_unconditional_witness :
    eventsOfExpr (.basic 31) = ([] : List Event) ∧
      run (.ok (some 0)) (funcLitFile ((StmtList.cons (acqStmt oC 30) .nil).append
          (.cons (.ifS (.basic 31) (.cons (deferEndStmt oC 32) .nil) .nil)
            (.cons (retNil 33) .nil))))
        = run (.ok (some 0)) (funcLitFile ((StmtList.cons (acqStmt oC 30) .nil).append
          (.cons (deferEndStmt oC 32) (.cons (retNil 33) .nil)))) :=
  ⟨rfl, c3_conditional_defer_like_unconditional (.ok (some 0)) (.basic 31) (deferEndStmt oC 32)
    (.cons (acqStmt oC 30) .nil) (.cons (retNil 33) .nil) rfl⟩

/-- Claim C4 (confirmed): for a function that acquires a binding and
returns it as a result expression, MissingRelease is never reported for
that binding, whatever release calls exist. As with claim C2 the proof
shows the diagnostic is never emitted at all, which subsumes the claim. -/
theorem c4_returned_never_missing (spanTy : Nat) (f : File) (o : Obj) (ds : List Diag)
    (_hret : fileAcqReturned spanTy o f = true)
    (hrun : run (.ok (some spanTy)) f = .ok ds) :
    ((o.pos, missingMsg) : Diag) ∉ ds := by
  have : runEvents spanTy (eventsOfFile f) = ds := by
    simpa [run] using hrun
  rw [← this]
  exact runEvents_no_missing spanTy _ o.pos

/-- Witness for claim C4: the returningSpan-shaped program satisfies the
hypotheses and its run reports nothing. -/
theorem c4_returned_never_missing_witness :
    fileAcqReturned 0 oD progD = true ∧ ((oD.pos, missingMsg) : Diag) ∉ ([] : List Diag) :=
  ⟨by decide, c4_returned_never_missing 0 progD oD [] (by decide) rfl⟩

/-- Claim C5 (code bug, evaluation at the failing input): on Scenario D, a
declared function that acquires, releases directly on its only path and
returns, the claim (and the repository testdata nonDefer function with its
want comment) demand one PreferDeferredRelease advisory at the release
call; the code reports nothing. The standalone span.End() statement is an
ExprStmt, a node kind absent from the nodeFilter, and the binding is not
even tracked because the FuncDecl context was already popped. -/
theorem c5_advisory_not_reported : run (.ok (some 0)) progE = .ok [] := rfl

/-- Claim C6 (code bug, evaluation at the failing input): a nested function
literal that acquires and never releases nor returns its span. The claim
(and the testdata anonymous function) demand a MissingRelease at the nested
acquisition; the code reports nothing: FuncLit contexts are pushed onto the
funcStack but the exit check only ever fires (and pops) at FuncDecl nodes,
so a literal context is never checked. -/
theorem c6_nested_literal_not_reported : run (.ok (some 0)) progF = .ok [] := rfl

/-- Claim C7 (code bug, evaluation at the failing input): two acquisitions
into distinct resolved objects (re-declaration of one name), the first
abandoned unreleased, only the second released. The object-keyed spans map
does track both independently, as the claim describes, but the exit check
that would report the first binding at its acquisition position never runs
on a populated context, so nothing is reported. -/
theorem c7_shadowed_binding_not_reported : run (.ok (some 0)) progG = .ok [] := rfl

/-- Counterexample for claim C8: run does not return without error for
every input. A failed packages.Load is returned as the error of the whole
run, and a load that succeeds without yielding a Span type makes run
dereference a nil pointer. Both are whole-run failures with no recovery
and no partial report, refuting the never-fatal claim. -/
theorem c8_fatal_counterexample :
    run (.error "go list failed") ([] : File) = .error (.load "go list failed") ∧
      run (.ok none) ([] : File) = .error .panicNilSpan :=
  ⟨rfl, rfl⟩

/-- Claim C8 (corrected): the complete outcome analysis of run. The two
environment-level problems (load failure, missing Span type) are each
propagated as a fatal outcome of the whole run; when the environment is
good, the analysis itself is total: it never fails, skips nothing, and
returns the findings over the whole file, so no per-function recovery
path exists or is needed in this revision. -/
theorem c8_run_outcomes (load : Except String (Option Nat)) (f : File) :
    (∃ e, load = .error e ∧ run load f = .error (.load e)) ∨
      (load = .ok none ∧ run load f = .error .panicNilSpan) ∨
      (∃ spanTy, load = .ok (some spanTy) ∧
        run load f = .ok (runEvents spanTy (eventsOfFile f))) := by
  cases load with
  | error e => exact Or.inl ⟨e, rfl, rfl⟩
  | ok v =>
    cases v with
    | none => exact Or.inr (Or.inl ⟨rfl, rfl⟩)
    | some spanTy => exact Or.inr (Or.inr ⟨spanTy, rfl, rfl⟩)

/-- Counterexample for claim C9: the findings depend on state outside the
parsed input. The same program, analyzed under two load environments that
both succeed, yields the advisory in one and nothing in the other, because
run resolves the span type by loading a package from the environment
during the run instead of taking it from the front-end input. -/
theorem c9_external_state_counterexample :
    run (.ok (some 0)) progH = .ok [(92, preferMsg)] ∧
      run (.ok (some 1)) progH = .ok [] ∧
      ([(92, preferMsg)] : List Diag) ≠ [] :=
  ⟨rfl, rfl, by decide⟩

/-- Claim C9 (corrected): determinism holds only relative to the load
result. Fixing the outcome of the packages.Load call, the findings are a
function of the filtered preorder node sequence of the input alone, in a
fixed emission order; two runs over the same input and load result are
identical. -/
theorem c9_deterministic_given_load (load : Except String (Option Nat)) (f1 f2 : File)
    (h : eventsOfFile f1 = eventsOfFile f2) : run load f1 = run load f2 :=
  run_congr load f1 f2 h

/-- Witness for claim C9 as amended: two syntactically different files
with the same filtered node sequence produce the same output. -/
theorem c9_deterministic_given_load_witness :
    eventsOfFile [Decl.funcDecl .nil]
        = eventsOfFile [Decl.funcDecl (.cons (.exprS (.ident none 5)) .nil)] ∧
      run (.ok (some 0)) [Decl.funcDecl .nil]
        = run (.ok (some 0)) [Decl.funcDecl (.cons (.exprS (.ident none 5)) .nil)] :=
  ⟨rfl, c9_deterministic_given_load (.ok (some 0)) [Decl.funcDecl .nil]
    [Decl.funcDecl (.cons (.exprS (.ident none 5)) .nil)] rfl⟩

/-- Claim C10 (confirmed): an assignment of any shape other than the one
the AssignStmt case requires (exactly two left-hand sides, one right-hand
side that is a call on a selector named Start, second left-hand side an
identifier resolving to an object of a type assignable to the span type)
tracks no binding and contributes no finding: the step leaves the analyzer
state untouched, and deleting the node from the run changes no finding. -/
theorem c10_nonconforming_assign_inert (spanTy : Nat) (lhs rhs : ExprList)
    (h : spanAcqObj spanTy lhs rhs = none) :
    (∀ st : St, step spanTy st (.assign lhs rhs) = st) ∧
      (∀ pre post : List Event,
        runEvents spanTy (pre ++ Event.assign lhs rhs :: post) = runEvents spanTy (pre ++ post)) :=
  ⟨fun st => step_assign_none spanTy st lhs rhs h,
    fun pre post => runEvents_erase_assign spanTy pre post lhs rhs h⟩

/-- Witness for claim C10: a single-target assignment of a Start call (the
handle missing from the second position) is not tracked and is invisible
to the run. -/
theorem c10_nonconforming_assign_inert_witness :
    spanAcqObj 0 (.cons (.ident (some ⟨1, 2, 0⟩) 2) .nil)
        (.cons (.call (.sel (.ident none 3) "Start" 3) .nil 3) .nil) = none ∧
      runEvents 0 ([Event.funcLit] ++
          Event.assign (.cons (.ident (some ⟨1, 2, 0⟩) 2) .nil)
            (.cons (.call (.sel (.ident none 3) "Start" 3) .nil 3) .nil) :: [])
        = runEvents 0 ([Event.funcLit] ++ []) :=
  ⟨rfl, (c10_nonconforming_assign_inert 0 (.cons (.ident (some ⟨1, 2, 0⟩) 2) .nil)
    (.cons (.call (.sel (.ident none 3) "Start" 3) .nil 3) .nil) rfl).2 [Event.funcLit] []⟩

end Endlesspan
